import Mathlib

/-!
Shallow embedding of the soniq audio recording / visualization library
(`src/core/soniq.ts`, `src/core/visualizers/BaseVisualizer.ts`,
`SpectrumVisualizer`, `ParticleVisualizer`) together with proofs about the
session coordinator's lifecycle operations and the renderers' algorithms.

Observable side effects (stopping stream tracks, closing the audio context,
cancelling / requesting animation frames, invoking the user callbacks) are
recorded as an explicit event list so that ordering properties of the
teardown and failure paths can be stated.
-/

/-- Observable actions performed by the library against the host platform
or the user-supplied callbacks. -/
inductive Ev where
  | trackStop (t : Nat)
  | contextClose
  | cancelFrame (i : Nat)
  | requestFrame (i : Nat)
  | permissionsFailedCb
  | recordedCb (chunks : List Nat)
  deriving DecidableEq

/-- State of a `BaseVisualizer` as seen by the session coordinator:
whether `setAnalyser` has been called, and the `animationFrameId` field
(`none` models the JS `null`). -/
structure VisState where
  hasAnalyser : Bool
  frameId : Option Nat
  deriving DecidableEq

namespace BaseVisualizer

/-- `BaseVisualizer.cleanup`: `if (this.animationFrameId) { cancelAnimationFrame(id);
this.animationFrameId = null; }`.  The JS truthiness test skips both `null`
and `0`. -/
def cleanup (v : VisState) : VisState × List Ev :=
  match v.frameId with
  | some i => if i = 0 then (v, []) else ({ v with frameId := none }, [Ev.cancelFrame i])
  | none => (v, [])

end BaseVisualizer

/-- State of the platform `MediaRecorder` (`paused` is never used by this
library and is omitted). -/
inductive RecState where
  | inactive
  | recording
  deriving DecidableEq

/-- The private fields of the `Soniq` class.  `stream` carries the track
identifiers of the acquired `MediaStream`; `chunks` is the `BlobPart[]`
buffer with chunks modelled as naturals; `hasContext` models
`this.context !== null` and `hasAnalyser` models `this.analyser !== null`. -/
structure SoniqState where
  recorder : Option RecState
  hasContext : Bool
  hasAnalyser : Bool
  chunks : List Nat
  isRecording : Bool
  stream : Option (List Nat)
  vis : VisState
  deriving DecidableEq

/-- Outcomes of the platform calls made inside `setup()`:
`gum` is the result of `getUserMedia` (`none` = rejected),
`ctxOk` is whether `new AudioContext()` succeeds,
`anaOk` is whether `createAnalyser()` succeeds,
`recOk` is whether `new MediaRecorder(stream)` succeeds. -/
structure SetupEnv where
  gum : Option (List Nat)
  ctxOk : Bool
  anaOk : Bool
  recOk : Bool
  deriving DecidableEq

namespace Soniq

/-- `Soniq.cleanup`: stops the visualizer loop, stops every stream track,
calls `context.close()` when a context reference is present, then resets
`stream`, `recorder`, `analyser`, `chunks` and `isRecording`.  Note that
the source never sets `this.context = null`, so the context reference
survives cleanup. -/
def cleanup (s : SoniqState) : SoniqState × List Ev :=
  let vc := BaseVisualizer.cleanup s.vis
  let streamEvs := (s.stream.getD []).map Ev.trackStop
  let ctxEvs := if s.hasContext then [Ev.contextClose] else []
  ({ s with recorder := none, hasAnalyser := false, chunks := [],
            isRecording := false, stream := none, vis := vc.1 },
   vc.2 ++ streamEvs ++ ctxEvs)

/-- The `catch` branch of `Soniq.setup`: invoke `onPermissionsFailed`,
then `this.cleanup()`, then `return false`. -/
def failPath (sp : SoniqState) : SoniqState × List Ev × Bool :=
  let c := cleanup sp
  (c.1, Ev.permissionsFailedCb :: c.2, false)

/-- `Soniq.setup`: initial `cleanup()`, then `getUserMedia`, context,
analyser (plus `visualizer.setAnalyser`), and `MediaRecorder` creation,
falling into `failPath` as soon as one of the platform calls fails. -/
def setup (s : SoniqState) (env : SetupEnv) : SoniqState × List Ev × Bool :=
  let c0 := cleanup s
  let s1 := c0.1
  let res :=
    match env.gum with
    | none => failPath s1
    | some ts =>
      let s2 := { s1 with stream := some ts }
      if env.ctxOk = false then failPath s2
      else
        let s3 := { s2 with hasContext := true }
        if env.anaOk = false then failPath s3
        else
          let s4 := { s3 with hasAnalyser := true, vis := { s3.vis with hasAnalyser := true } }
          if env.recOk = false then failPath s4
          else ({ s4 with recorder := some RecState.inactive }, [], true)
  (res.1, c0.2 ++ res.2.1, res.2.2)

/-- `Soniq.record`: returns false when no recorder exists; otherwise calls
`recorder.start()`, which throws `InvalidStateError` when the platform
recorder is not inactive (the `catch` then returns false with no state
change); on success sets `isRecording` and returns true. -/
def record (s : SoniqState) : SoniqState × Bool :=
  match s.recorder with
  | none => (s, false)
  | some RecState.inactive =>
      ({ s with recorder := some RecState.recording, isRecording := true }, true)
  | some RecState.recording => (s, false)

/-- `Soniq.stop`: returns false when no recorder exists or `isRecording`
is false; otherwise calls `recorder.stop()`, which synchronously moves the
platform recorder to `inactive` (the `dataavailable` / `stop` events are
delivered later) and returns true; a stop on an inactive recorder throws
and the `catch` returns false. -/
def stop (s : SoniqState) : SoniqState × Bool :=
  match s.recorder with
  | none => (s, false)
  | some rs =>
    if s.isRecording = false then (s, false)
    else
      match rs with
      | RecState.recording => ({ s with recorder := some RecState.inactive }, true)
      | RecState.inactive => (s, false)

/-- `Soniq.cancel`: sets `isRecording` to false, calls `recorder.stop()`
and `cleanup()`; when the platform stop throws, the `catch` returns false
(with `isRecording` already cleared). -/
def cancel (s : SoniqState) : SoniqState × List Ev × Bool :=
  match s.recorder with
  | none => (s, [], false)
  | some rs =>
    if s.isRecording = false then (s, [], false)
    else
      match rs with
      | RecState.recording =>
        let c := cleanup { s with isRecording := false, recorder := some RecState.inactive }
        (c.1, c.2, true)
      | RecState.inactive => ({ s with isRecording := false }, [], false)

/-- The `recorder.ondataavailable` handler installed by `setup`: appends the
chunk to `this.chunks` only when `isRecording` is set. -/
def onDataAvailable (s : SoniqState) (c : Nat) : SoniqState :=
  if s.isRecording then { s with chunks := s.chunks ++ [c] } else s

/-- The `recorder.onstop` handler installed by `setup`: returns immediately
when `isRecording` is false; otherwise builds the blob from `this.chunks`,
invokes `onRecorded`, and runs `cleanup()`. -/
def onStop (s : SoniqState) : SoniqState × List Ev :=
  if s.isRecording = false then (s, [])
  else
    let c := cleanup s
    (c.1, Ev.recordedCb s.chunks :: c.2)

/-- `Soniq.setVisualizer`: cleans up the current visualizer, installs the
new one, and calls `setAnalyser` on it when an analyser is live. -/
def setVisualizer (s : SoniqState) (v : VisState) : SoniqState × List Ev :=
  let c := BaseVisualizer.cleanup s.vis
  let v2 := if s.hasAnalyser then { v with hasAnalyser := true } else v
  ({ s with vis := v2 }, c.2)

/-- `Soniq.destroy`: delegates to `cleanup`. -/
def destroy (s : SoniqState) : SoniqState × List Ev :=
  cleanup s

end Soniq

/-- Events that release platform resources (track stops, context closes,
animation-frame cancellations), as opposed to user-callback invocations. -/
def isReleaseEv : Ev → Bool
  | Ev.trackStop _ => true
  | Ev.contextClose => true
  | Ev.cancelFrame _ => true
  | _ => false

/-- True when some release action appears strictly after the
`onPermissionsFailed` callback in a trace. -/
def releaseAfterCb (tr : List Ev) : Bool :=
  ((tr.dropWhile (fun e => e != Ev.permissionsFailedCb)).drop 1).any isReleaseEv

/-- A session state with no live resources: the "fully torn down" half of
the CaptureSession invariant. -/
def tornDown (s : SoniqState) : Prop :=
  s.recorder = none ∧ s.hasAnalyser = false ∧ s.stream = none ∧
  s.chunks = [] ∧ s.isRecording = false ∧ s.vis.frameId = none

/-- The spec's `Ready` state: a recorder exists and no recording is in
progress. -/
def isReady (s : SoniqState) : Bool := s.recorder.isSome && !s.isRecording

/-- Whether a visualizer's animation loop is running. -/
def visRunning (v : VisState) : Bool := v.frameId.isSome

/-- A freshly constructed visualizer. -/
def freshVis : VisState := { hasAnalyser := false, frameId := none }

/-- A freshly constructed `Soniq` instance. -/
def s0 : SoniqState :=
  { recorder := none, hasContext := false, hasAnalyser := false,
    chunks := [], isRecording := false, stream := none, vis := freshVis }

/-- A live session in the middle of a recording: one stream track, a live
context and analyser, one buffered chunk, visualization running. -/
def sRecording : SoniqState :=
  { recorder := some RecState.recording, hasContext := true, hasAnalyser := true,
    chunks := [10], isRecording := true, stream := some [0],
    vis := { hasAnalyser := true, frameId := some 1 } }

/-- A fully set-up session that is not recording. -/
def sReady : SoniqState :=
  { recorder := some RecState.inactive, hasContext := true, hasAnalyser := true,
    chunks := [], isRecording := false, stream := some [0],
    vis := { hasAnalyser := true, frameId := none } }

/-- A fully set-up session with an active visualization loop. -/
def sVisActive : SoniqState :=
  { recorder := some RecState.inactive, hasContext := true, hasAnalyser := true,
    chunks := [], isRecording := false, stream := some [0],
    vis := { hasAnalyser := true, frameId := some 1 } }

/-- A `setup` environment in which the stream is granted but the
`MediaRecorder` constructor fails. -/
def envRecFail : SetupEnv := { gum := some [7], ctxOk := true, anaOk := true, recOk := false }

/-! ## Helper lemmas about `Soniq.cleanup` -/

theorem cleanup_state (s : SoniqState) (hv : s.vis.frameId ≠ some 0) :
    (Soniq.cleanup s).1 =
      { recorder := none, hasContext := s.hasContext, hasAnalyser := false,
        chunks := [], isRecording := false, stream := none,
        vis := { hasAnalyser := s.vis.hasAnalyser, frameId := none } } := by
  rcases s with ⟨rec, ctx, ana, ch, ir, st, ⟨va, fid⟩⟩
  rcases fid with _ | i
  · simp [Soniq.cleanup, BaseVisualizer.cleanup]
  · have hi : i ≠ 0 := by simpa using hv
    simp [Soniq.cleanup, BaseVisualizer.cleanup, hi]

theorem cleanup_events_release (s : SoniqState) :
    ∀ e ∈ (Soniq.cleanup s).2, isReleaseEv e = true := by
  rcases s with ⟨rec, ctx, ana, ch, ir, st, ⟨va, fid⟩⟩
  intro e he
  simp only [Soniq.cleanup, BaseVisualizer.cleanup, List.mem_append] at he
  rcases he with (he | he) | he
  · rcases fid with _ | i
    · simp at he
    · by_cases hi : i = 0
      · simp [hi] at he
      · simp [hi] at he
        subst he; rfl
  · rcases st with _ | ts
    · simp at he
    · simp only [Option.getD_some, List.mem_map] at he
      rcases he with ⟨t, _, rfl⟩
      rfl
  · cases ctx
    · simp at he
    · simp at he
      subst he; rfl

theorem cleanup_trackStop_mem (s : SoniqState) (ts : List Nat) (hs : s.stream = some ts) :
    ∀ t ∈ ts, Ev.trackStop t ∈ (Soniq.cleanup s).2 := by
  intro t ht
  simp only [Soniq.cleanup, hs, List.mem_append, Option.getD_some, List.mem_map]
  exact Or.inl (Or.inr ⟨t, ht, rfl⟩)

theorem cleanup_tornDown (s : SoniqState) (hv : s.vis.frameId ≠ some 0) :
    tornDown (Soniq.cleanup s).1 := by
  rw [cleanup_state s hv]
  exact ⟨rfl, rfl, rfl, rfl, rfl, rfl⟩

/-! ## C1: failure handling in `setup` -/

/-- C1 counterexample: when `setup` fails at the `MediaRecorder` constructor
after the stream was acquired, the emitted action trace contains release
(teardown) actions strictly after the `onPermissionsFailed` callback, so the
full teardown is not performed before the failure callback is invoked. -/
theorem c1_teardown_before_callback_counterexample :
    releaseAfterCb (Soniq.setup s0 envRecFail).2.1 = true := by decide

/-- C1 (amended): on every failing run of `setup` the operation returns
false and leaves no partially-initialized session state live, but the full
teardown of the partial state runs after the `onPermissionsFailed` callback,
not before it: the trace is the initial cleanup, then the callback, then
release actions only, and every acquired stream track is stopped after the
callback. -/
theorem c1_setup_failure_teardown (s : SoniqState) (env : SetupEnv)
    (hfail : env.gum = none ∨ env.ctxOk = false ∨ env.anaOk = false ∨ env.recOk = false)
    (hv : s.vis.frameId ≠ some 0) :
    (Soniq.setup s env).2.2 = false ∧
    tornDown (Soniq.setup s env).1 ∧
    ∃ post, (Soniq.setup s env).2.1 = (Soniq.cleanup s).2 ++ Ev.permissionsFailedCb :: post ∧
      (∀ e ∈ post, isReleaseEv e = true) ∧
      (∀ ts, env.gum = some ts → ∀ t ∈ ts, Ev.trackStop t ∈ post) := by
  have hclean := cleanup_state s hv
  rcases env with ⟨gum, ctxOk, anaOk, recOk⟩
  rcases gum with _ | ts
  · -- getUserMedia rejected
    refine ⟨rfl, ?_, (Soniq.cleanup (Soniq.cleanup s).1).2, rfl, cleanup_events_release _, ?_⟩
    · exact cleanup_tornDown _ (by rw [hclean]; simp)
    · intro ts h; cases h
  · rcases ctxOk with _ | _
    · -- AudioContext constructor failed
      refine ⟨rfl, ?_, (Soniq.cleanup { (Soniq.cleanup s).1 with stream := some ts }).2,
        rfl, cleanup_events_release _, ?_⟩
      · exact cleanup_tornDown _ (by rw [hclean]; simp)
      · rintro ts2 ⟨rfl⟩ t ht
        exact cleanup_trackStop_mem _ ts rfl t ht
    · rcases anaOk with _ | _
      · -- createAnalyser failed
        refine ⟨rfl, ?_,
          (Soniq.cleanup { (Soniq.cleanup s).1 with stream := some ts, hasContext := true }).2,
          rfl, cleanup_events_release _, ?_⟩
        · exact cleanup_tornDown _ (by rw [hclean]; simp)
        · rintro ts2 ⟨rfl⟩ t ht
          exact cleanup_trackStop_mem _ ts rfl t ht
      · rcases recOk with _ | _
        · -- MediaRecorder constructor failed
          refine ⟨rfl, ?_, _, rfl, cleanup_events_release _, ?_⟩
          · exact cleanup_tornDown _ (by rw [hclean]; simp)
          · rintro ts2 ⟨rfl⟩ t ht
            exact cleanup_trackStop_mem _ ts rfl t ht
        · -- all platform calls succeeded: contradiction with hfail
          simp at hfail

/-- Witness for `c1_setup_failure_teardown` at the fresh instance and the
environment where the recorder constructor fails. -/
theorem c1_setup_failure_teardown_witness :
    (Soniq.setup s0 envRecFail).2.2 = false ∧
    tornDown (Soniq.setup s0 envRecFail).1 ∧
    ∃ post, (Soniq.setup s0 envRecFail).2.1 =
        (Soniq.cleanup s0).2 ++ Ev.permissionsFailedCb :: post ∧
      (∀ e ∈ post, isReleaseEv e = true) ∧
      (∀ ts, envRecFail.gum = some ts → ∀ t ∈ ts, Ev.trackStop t ∈ post) :=
  c1_setup_failure_teardown s0 envRecFail (by decide) (by decide)

/-! ## C2: chunk acceptance around `stop` -/

/-- C2 counterexample: after `stop()` returns, the recording flag is still
set, and a chunk delivered by the encoder after the stop call is appended
to the chunk buffer (it is not dropped); the claim that the flag is already
cleared when finalization begins is therefore false. -/
theorem c2_flag_cleared_at_stop_counterexample :
    (Soniq.stop sRecording).1.isRecording = true ∧
    (Soniq.onDataAvailable (Soniq.stop sRecording).1 99).chunks = [10, 99] := by decide

/-- C2 (amended): `stop()` leaves the recording flag set; a chunk delivered
between the stop call and the recorder's stop event is appended and is
included in the finalized artifact; the flag is cleared only by the cleanup
at the end of finalization, after which further chunks are dropped. -/
theorem c2_chunks_until_finalization (s : SoniqState) (c c2 : Nat)
    (hr : s.recorder = some RecState.recording) (hrec : s.isRecording = true) :
    (Soniq.stop s).2 = true ∧
    (Soniq.stop s).1.isRecording = true ∧
    (Soniq.onDataAvailable (Soniq.stop s).1 c).chunks = s.chunks ++ [c] ∧
    (Soniq.onStop (Soniq.onDataAvailable (Soniq.stop s).1 c)).2.head? =
      some (Ev.recordedCb (s.chunks ++ [c])) ∧
    (Soniq.onStop (Soniq.onDataAvailable (Soniq.stop s).1 c)).1.isRecording = false ∧
    Soniq.onDataAvailable (Soniq.onStop (Soniq.onDataAvailable (Soniq.stop s).1 c)).1 c2 =
      (Soniq.onStop (Soniq.onDataAvailable (Soniq.stop s).1 c)).1 := by
  simp [Soniq.stop, Soniq.onDataAvailable, Soniq.onStop, Soniq.cleanup, hr, hrec]

/-- Witness for `c2_chunks_until_finalization` at a live recording state. -/
theorem c2_chunks_until_finalization_witness :
    (Soniq.stop sRecording).2 = true ∧
    (Soniq.stop sRecording).1.isRecording = true ∧
    (Soniq.onDataAvailable (Soniq.stop sRecording).1 99).chunks = [10] ++ [99] ∧
    (Soniq.onStop (Soniq.onDataAvailable (Soniq.stop sRecording).1 99)).2.head? =
      some (Ev.recordedCb ([10] ++ [99])) ∧
    (Soniq.onStop (Soniq.onDataAvailable (Soniq.stop sRecording).1 99)).1.isRecording = false ∧
    Soniq.onDataAvailable
        (Soniq.onStop (Soniq.onDataAvailable (Soniq.stop sRecording).1 99)).1 5 =
      (Soniq.onStop (Soniq.onDataAvailable (Soniq.stop sRecording).1 99)).1 :=
  c2_chunks_until_finalization sRecording 99 5 (by decide) (by decide)

/-! ## C3: preconditions of `record` -/

/-- C3 counterexample: from the `Ready` state, `record()` then `stop()`
leaves a reachable state whose recorder is inactive while the recording
flag is still set (finalization pending), so the session is not `Ready`;
yet `record()` succeeds from it, so `record` is not a no-op on every
non-`Ready` state. -/
theorem c3_record_only_from_ready_counterexample :
    isReady ((Soniq.stop (Soniq.record sReady).1).1) = false ∧
    (Soniq.record ((Soniq.stop (Soniq.record sReady).1).1)).2 = true := by decide

/-- C3 (amended): `record` returns false and changes no state when no
recorder exists or when the platform recorder is actively recording; from a
state whose recorder exists and is inactive it starts the recorder, sets
the recording flag and returns true — `record` never consults the session
recording flag, so it can also succeed in the post-`stop` window. -/
theorem c3_record_preconditions (s : SoniqState) :
    (s.recorder = none → Soniq.record s = (s, false)) ∧
    (s.recorder = some RecState.recording → Soniq.record s = (s, false)) ∧
    (s.recorder = some RecState.inactive →
      Soniq.record s =
        ({ s with recorder := some RecState.recording, isRecording := true }, true)) ∧
    ((Soniq.record s).2 = true ↔ s.recorder = some RecState.inactive) := by
  rcases s with ⟨rec, ctx, ana, ch, ir, st, v⟩
  rcases rec with _ | rs
  · simp [Soniq.record]
  · rcases rs
    · simp [Soniq.record]
    · simp [Soniq.record]

/-- Witness for `c3_record_preconditions` at the `Ready` state. -/
theorem c3_record_preconditions_witness :
    (sReady.recorder = none → Soniq.record sReady = (sReady, false)) ∧
    (sReady.recorder = some RecState.recording → Soniq.record sReady = (sReady, false)) ∧
    (sReady.recorder = some RecState.inactive →
      Soniq.record sReady =
        ({ sReady with recorder := some RecState.recording, isRecording := true }, true)) ∧
    ((Soniq.record sReady).2 = true ↔ sReady.recorder = some RecState.inactive) :=
  c3_record_preconditions sReady

/-! ## C4: `setVisualizer` -/

/-- C4 counterexample: with visualization active on the current renderer,
`setVisualizer` installs a new renderer whose animation loop is not
running — the new renderer is not restarted against the current surface,
contrary to the claim. -/
theorem c4_swap_restarts_counterexample :
    visRunning sVisActive.vis = true ∧
    visRunning (Soniq.setVisualizer sVisActive freshVis).1.vis = false := by decide

/-- C4 (amended): `setVisualizer` cancels the previous renderer's animation
loop, installs the new renderer, attaches the live analyser to it when one
exists, and leaves the recording state (recorder, chunk buffer, recording
flag, stream) unchanged; it does not restart the new renderer — the new
renderer's loop handle is exactly the one it came with (none for a fresh
renderer), so the caller must invoke `visualize` again. -/
theorem c4_swap_detaches_without_restart (s : SoniqState) (v : VisState) (i : Nat)
    (hi : s.vis.frameId = some i) (h0 : i ≠ 0) :
    (Soniq.setVisualizer s v).2 = [Ev.cancelFrame i] ∧
    (Soniq.setVisualizer s v).1.vis.hasAnalyser = (v.hasAnalyser || s.hasAnalyser) ∧
    (Soniq.setVisualizer s v).1.vis.frameId = v.frameId ∧
    (Soniq.setVisualizer s v).1.recorder = s.recorder ∧
    (Soniq.setVisualizer s v).1.chunks = s.chunks ∧
    (Soniq.setVisualizer s v).1.isRecording = s.isRecording ∧
    (Soniq.setVisualizer s v).1.stream = s.stream := by
  rcases s with ⟨rec, ctx, ana, ch, ir, st, ⟨va, fid⟩⟩
  simp only [Soniq.setVisualizer, BaseVisualizer.cleanup] at *
  subst hi
  cases ana
  · simp [h0]
  · simp [h0]

/-- Witness for `c4_swap_detaches_without_restart` at an active session. -/
theorem c4_swap_detaches_without_restart_witness :
    (Soniq.setVisualizer sVisActive freshVis).2 = [Ev.cancelFrame 1] ∧
    (Soniq.setVisualizer sVisActive freshVis).1.vis.hasAnalyser =
      (freshVis.hasAnalyser || sVisActive.hasAnalyser) ∧
    (Soniq.setVisualizer sVisActive freshVis).1.vis.frameId = freshVis.frameId ∧
    (Soniq.setVisualizer sVisActive freshVis).1.recorder = sVisActive.recorder ∧
    (Soniq.setVisualizer sVisActive freshVis).1.chunks = sVisActive.chunks ∧
    (Soniq.setVisualizer sVisActive freshVis).1.isRecording = sVisActive.isRecording ∧
    (Soniq.setVisualizer sVisActive freshVis).1.stream = sVisActive.stream :=
  c4_swap_detaches_without_restart sVisActive freshVis 1 (by decide) (by decide)

/-! ## C5: idempotence of teardown -/

/-- C5 counterexample: immediately repeating `cleanup` (the body of
`destroy`) on a live session performs a release action the second time:
because `cleanup` never clears the context reference, the second run calls
`close()` on the audio context again. -/
theorem c5_teardown_idempotent_counterexample :
    (Soniq.cleanup (Soniq.cleanup sVisActive).1).2 = [Ev.contextClose] := by decide

/-- C5 (amended): teardown is idempotent on the session state and performs
no further track stops or frame cancellations on a second run, but it does
issue a second `close()` on the audio processing context whenever one was
created, because the context reference is never cleared; each single run
stops every stream track, closes the context when present, cancels the
renderer's frame, clears the chunk buffer and forces the recording flag
false. -/
theorem c5_teardown_state_idempotent (s : SoniqState) :
    Soniq.destroy s = Soniq.cleanup s ∧
    (Soniq.cleanup (Soniq.cleanup s).1).1 = (Soniq.cleanup s).1 ∧
    (Soniq.cleanup (Soniq.cleanup s).1).2 =
      (if s.hasContext then [Ev.contextClose] else []) ∧
    (Soniq.cleanup s).1.hasContext = s.hasContext ∧
    (Soniq.cleanup s).1.chunks = [] ∧
    (Soniq.cleanup s).1.isRecording = false ∧
    (∀ ts, s.stream = some ts → ∀ t ∈ ts, Ev.trackStop t ∈ (Soniq.cleanup s).2) ∧
    (s.hasContext = true → Ev.contextClose ∈ (Soniq.cleanup s).2) ∧
    (∀ i, i ≠ 0 → s.vis.frameId = some i → Ev.cancelFrame i ∈ (Soniq.cleanup s).2) := by
  rcases s with ⟨rec, ctx, ana, ch, ir, st, ⟨va, fid⟩⟩
  refine ⟨rfl, ?_, ?_, rfl, rfl, rfl, ?_, ?_, ?_⟩
  · rcases fid with _ | i
    · cases ctx <;> simp [Soniq.cleanup, BaseVisualizer.cleanup]
    · by_cases hi : i = 0 <;> cases ctx <;> simp [Soniq.cleanup, BaseVisualizer.cleanup, hi]
  · rcases fid with _ | i
    · cases ctx <;> simp [Soniq.cleanup, BaseVisualizer.cleanup]
    · by_cases hi : i = 0 <;> cases ctx <;> simp [Soniq.cleanup, BaseVisualizer.cleanup, hi]
  · intro ts hts t ht
    exact cleanup_trackStop_mem _ ts hts t ht
  · intro hc
    subst hc
    simp [Soniq.cleanup]
  · intro i hi hfid
    simp only at hfid
    subst hfid
    simp [Soniq.cleanup, BaseVisualizer.cleanup, hi]

/-- Witness for `c5_teardown_state_idempotent` at a live session. -/
theorem c5_teardown_state_idempotent_witness :
    Soniq.destroy sVisActive = Soniq.cleanup sVisActive ∧
    (Soniq.cleanup (Soniq.cleanup sVisActive).1).1 = (Soniq.cleanup sVisActive).1 ∧
    (Soniq.cleanup (Soniq.cleanup sVisActive).1).2 =
      (if sVisActive.hasContext then [Ev.contextClose] else []) ∧
    (Soniq.cleanup sVisActive).1.hasContext = sVisActive.hasContext ∧
    (Soniq.cleanup sVisActive).1.chunks = [] ∧
    (Soniq.cleanup sVisActive).1.isRecording = false ∧
    (∀ ts, sVisActive.stream = some ts → ∀ t ∈ ts,
      Ev.trackStop t ∈ (Soniq.cleanup sVisActive).2) ∧
    (sVisActive.hasContext = true → Ev.contextClose ∈ (Soniq.cleanup sVisActive).2) ∧
    (∀ i, i ≠ 0 → sVisActive.vis.frameId = some i →
      Ev.cancelFrame i ∈ (Soniq.cleanup sVisActive).2) :=
  c5_teardown_state_idempotent sVisActive

/-! ## Animation-frame scheduler and the concrete renderers -/

/-- The host's animation-frame scheduler: `nextId` is the next callback
handle to hand out (handles are nonzero, so a fresh scheduler starts at 1)
and `pending` is the list of scheduled, not-yet-fired callback handles. -/
structure Sched where
  nextId : Nat
  pending : List Nat
  deriving DecidableEq

/-- `requestAnimationFrame`: returns a fresh handle and schedules it. -/
def rafRequest (sc : Sched) : Nat × Sched :=
  (sc.nextId, { nextId := sc.nextId + 1, pending := sc.pending ++ [sc.nextId] })

/-- `cancelAnimationFrame`: removes a handle from the pending set. -/
def rafCancel (sc : Sched) (i : Nat) : Sched :=
  { sc with pending := sc.pending.filter (fun j => j != i) }

/-- A 2D canvas as the renderers see it: whether `getContext` returns a
non-null drawing context. -/
structure Canvas where
  ctxOk : Bool
  deriving DecidableEq

/-- State of a `SpectrumVisualizer`: the inherited analyser reference and
animation handle, the analyser's `frequencyBinCount`, and the
`smoothedArray` (`Float32Array` modelled with rationals). -/
structure SpecState where
  hasAnalyser : Bool
  frameId : Option Nat
  bins : Nat
  smoothed : List ℚ
  deriving DecidableEq

namespace SpectrumVisualizer

/-- One bin of the smoothing pass:
`smoothed = smoothed * 0.8 + raw * 0.2`. -/
def smoothStep (s r : ℚ) : ℚ := s * (4/5) + r * (1/5)

/-- The smoothing block of `drawSpectrum`: when the smoothed array's length
does not match the data array's, it is re-created as a copy of the raw
data; otherwise every bin is blended with factor 0.8 / 0.2. -/
def smoothUpdate (sm raw : List ℚ) : List ℚ :=
  if sm.length ≠ raw.length then raw
  else List.zipWith smoothStep sm raw

/-- The inherited `cleanup` acting on a spectrum renderer, together with
its effect on the scheduler. -/
def cleanup (v : SpecState) (sc : Sched) : SpecState × Sched × List Ev :=
  match v.frameId with
  | some i =>
      if i = 0 then (v, sc, [])
      else ({ v with frameId := none }, rafCancel sc i, [Ev.cancelFrame i])
  | none => (v, sc, [])

/-- The body of `drawSpectrum`: bail out when the analyser is gone,
otherwise schedule the next frame and apply the smoothing pass to the
frequency data read for this frame (the drawing itself only touches the
canvas). -/
def drawSpectrum (v : SpecState) (raw : List ℚ) (sc : Sched) :
    SpecState × Sched × List Ev :=
  if v.hasAnalyser = false then (v, sc, [])
  else
    let r := rafRequest sc
    ({ v with frameId := some r.1, smoothed := smoothUpdate v.smoothed raw },
     r.2, [Ev.requestFrame r.1])

/-- `SpectrumVisualizer.visualize`: false when no analyser is attached, the
canvas is missing, or `getContext` yields null; otherwise cleanup, re-size
the canvas, reset the smoothed array to the bin count, and start the loop
by calling `drawSpectrum` (whose first run uses the current frame data). -/
def visualize (v : SpecState) (c? : Option Canvas) (raw : List ℚ) (sc : Sched) :
    SpecState × Sched × List Ev × Bool :=
  if v.hasAnalyser = false then (v, sc, [], false)
  else
    match c? with
    | none => (v, sc, [], false)
    | some c =>
      if c.ctxOk = false then (v, sc, [], false)
      else
        let cl := cleanup v sc
        let v1 := { cl.1 with smoothed := List.replicate v.bins 0 }
        let d := drawSpectrum v1 raw cl.2.1
        (d.1, d.2.1, cl.2.2 ++ d.2.2, true)

/-- The host fires a scheduled callback: the handle leaves the pending set
and the renderer's frame body runs. -/
def fireFrame (v : SpecState) (i : Nat) (raw : List ℚ) (sc : Sched) :
    SpecState × Sched × List Ev :=
  drawSpectrum v raw (rafCancel sc i)

end SpectrumVisualizer

/-- A particle of the `ParticleVisualizer`.  `dx` and `dy` are the constant
per-tick displacements `cos(angle) * speed` and `sin(angle) * speed` (angle
and speed never change after creation); `life` is the age counter and
`maxLife` the assigned maximum age. -/
structure Particle where
  x : ℚ
  y : ℚ
  size : ℚ
  dx : ℚ
  dy : ℚ
  life : Nat
  maxLife : ℚ
  deriving DecidableEq

/-- State of a `ParticleVisualizer`: inherited analyser reference and
animation handle, the live particle set, the rolling hue, and the
configured maximum particle count. -/
structure PartState where
  hasAnalyser : Bool
  frameId : Option Nat
  particles : List Particle
  hue : Nat
  particleCount : Nat
  deriving DecidableEq

namespace ParticleVisualizer

/-- The per-tick motion and ageing of one particle:
`p.x += cos(angle)*speed; p.y += sin(angle)*speed; p.life++`. -/
def stepParticle (p : Particle) : Particle :=
  { p with x := p.x + p.dx, y := p.y + p.dy, life := p.life + 1 }

/-- The out-of-bounds test of `updateParticles` against the display size:
the particle has left the surface by more than its radius. -/
def outOfBounds (w h : ℚ) (p : Particle) : Bool :=
  decide (p.x < -p.size) || decide (p.x > w + p.size) ||
  decide (p.y < -p.size) || decide (p.y > h + p.size)

/-- The expiry test of `updateParticles`: `p.life > p.maxLife`. -/
def expired (p : Particle) : Bool := decide ((p.life : ℚ) > p.maxLife)

/-- The update-and-remove half of `updateParticles`: every particle moves
and ages, then those out of bounds or expired are spliced out (the
downward loop with `splice` preserves the order of the survivors). -/
def updateExisting (w h : ℚ) (ps : List Particle) : List Particle :=
  (ps.map stepParticle).filter (fun p => !(outOfBounds w h p || expired p))

/-- The spawn half of `updateParticles`: push each candidate particle while
the particle set is below the configured maximum. -/
def addNew (count : Nat) (ps newPs : List Particle) : List Particle :=
  newPs.foldl (fun acc q => if acc.length < count then acc ++ [q] else acc) ps

/-- `updateParticles`: update and filter the existing particles, then add
`floor(particleCount * intensity * 0.2)` particles drawn from the random
stream `draws`. -/
def updateParticles (w h : ℚ) (count : Nat) (intensity : ℚ) (draws : List Particle)
    (ps : List Particle) : List Particle :=
  let toAdd := (⌊(count : ℚ) * intensity * (1/5)⌋).toNat
  addNew count (updateExisting w h ps) (draws.take toAdd)

/-- The overall intensity of a frame: `mean(magnitudes) / 255`. -/
def intensityOf (raw : List ℚ) : ℚ := (raw.sum / (raw.length : ℚ)) / 255

/-- The body of `animateParticles`: bail out when the analyser is gone;
otherwise schedule the next frame, advance the hue, and run
`updateParticles` on the frame's intensity (drawing only touches the
canvas). -/
def animateParticles (v : PartState) (w h : ℚ) (raw : List ℚ)
    (draws : List Particle) (sc : Sched) : PartState × Sched × List Ev :=
  if v.hasAnalyser = false then (v, sc, [])
  else
    let r := rafRequest sc
    let ps2 := updateParticles w h v.particleCount (intensityOf raw) draws v.particles
    ({ v with frameId := some r.1, hue := (v.hue + 1) % 360, particles := ps2 },
     r.2, [Ev.requestFrame r.1])

/-- The inherited `cleanup` acting on a particle renderer. -/
def cleanup (v : PartState) (sc : Sched) : PartState × Sched × List Ev :=
  match v.frameId with
  | some i =>
      if i = 0 then (v, sc, [])
      else ({ v with frameId := none }, rafCancel sc i, [Ev.cancelFrame i])
  | none => (v, sc, [])

/-- `ParticleVisualizer.visualize`: false when no analyser is attached, the
canvas is missing, or `getContext` yields null; otherwise cleanup, re-size
the canvas, reset the particle set and hue, paint the background, and start
the loop by calling `animateParticles`. -/
def visualize (v : PartState) (c? : Option Canvas) (w h : ℚ) (raw : List ℚ)
    (draws : List Particle) (sc : Sched) : PartState × Sched × List Ev × Bool :=
  if v.hasAnalyser = false then (v, sc, [], false)
  else
    match c? with
    | none => (v, sc, [], false)
    | some c =>
      if c.ctxOk = false then (v, sc, [], false)
      else
        let cl := cleanup v sc
        let v1 := { cl.1 with particles := [], hue := 0 }
        let a := animateParticles v1 w h raw draws cl.2.1
        (a.1, a.2.1, cl.2.2 ++ a.2.2, true)

/-- The host fires a scheduled callback of the particle renderer. -/
def fireFrame (v : PartState) (i : Nat) (w h : ℚ) (raw : List ℚ)
    (draws : List Particle) (sc : Sched) : PartState × Sched × List Ev :=
  animateParticles v w h raw draws (rafCancel sc i)

end ParticleVisualizer

/-- State of a `BarVisualizer`: the inherited analyser reference and
animation handle, the sweep position, the frame-skip counter and the
configured bar width. -/
structure BarState where
  hasAnalyser : Bool
  frameId : Option Nat
  xPosition : ℚ
  frameSkipTracker : Nat
  barWidth : ℚ
  deriving DecidableEq

namespace BarVisualizer

/-- The inherited `cleanup` acting on a bar renderer. -/
def cleanup (v : BarState) (sc : Sched) : BarState × Sched × List Ev :=
  match v.frameId with
  | some i =>
      if i = 0 then (v, sc, [])
      else ({ v with frameId := none }, rafCancel sc i, [Ev.cancelFrame i])
  | none => (v, sc, [])

/-- The body of `updateBars`: bail out when the analyser is gone; otherwise
schedule the next frame and advance the frame-skip counter modulo 10; on an
odd counter value the tick returns without drawing; otherwise the bar is
drawn (the averaged-magnitude height computation only touches the canvas)
and the sweep position advances by `2 * barWidth`, wrapping to 0 at the
display width. -/
def updateBars (v : BarState) (w : ℚ) (sc : Sched) : BarState × Sched × List Ev :=
  if v.hasAnalyser = false then (v, sc, [])
  else
    let r := rafRequest sc
    let tracker := (v.frameSkipTracker + 1) % 10
    if tracker % 2 ≠ 0 then
      ({ v with frameId := some r.1, frameSkipTracker := tracker },
       r.2, [Ev.requestFrame r.1])
    else
      let x2 := v.xPosition + 2 * v.barWidth
      ({ v with frameId := some r.1, frameSkipTracker := tracker,
                xPosition := if x2 ≥ w then 0 else x2 },
       r.2, [Ev.requestFrame r.1])

/-- `BarVisualizer.visualize`: false when no analyser is attached, the
canvas is missing, or `getContext` yields null; otherwise cleanup, re-size
the canvas, reset the sweep position, draw the default resting bars
(canvas only), and start the loop with `updateBars`. -/
def visualize (v : BarState) (c? : Option Canvas) (w : ℚ) (sc : Sched) :
    BarState × Sched × List Ev × Bool :=
  if v.hasAnalyser = false then (v, sc, [], false)
  else
    match c? with
    | none => (v, sc, [], false)
    | some c =>
      if c.ctxOk = false then (v, sc, [], false)
      else
        let cl := cleanup v sc
        let v1 := { cl.1 with xPosition := 0 }
        let d := updateBars v1 w cl.2.1
        (d.1, d.2.1, cl.2.2 ++ d.2.2, true)

/-- The host fires a scheduled callback of the bar renderer. -/
def fireFrame (v : BarState) (i : Nat) (w : ℚ) (sc : Sched) :
    BarState × Sched × List Ev :=
  updateBars v w (rafCancel sc i)

end BarVisualizer

/-- State of a `WaveVisualizer`: only the inherited analyser reference and
animation handle — the wave strategy keeps no state of its own. -/
structure WaveState where
  hasAnalyser : Bool
  frameId : Option Nat
  deriving DecidableEq

namespace WaveVisualizer

/-- The inherited `cleanup` acting on a wave renderer. -/
def cleanup (v : WaveState) (sc : Sched) : WaveState × Sched × List Ev :=
  match v.frameId with
  | some i =>
      if i = 0 then (v, sc, [])
      else ({ v with frameId := none }, rafCancel sc i, [Ev.cancelFrame i])
  | none => (v, sc, [])

/-- The body of `drawWave`: bail out when the analyser is gone; otherwise
schedule the next frame and draw the time-domain polyline, which only
touches the canvas. -/
def drawWave (v : WaveState) (sc : Sched) : WaveState × Sched × List Ev :=
  if v.hasAnalyser = false then (v, sc, [])
  else
    let r := rafRequest sc
    ({ v with frameId := some r.1 }, r.2, [Ev.requestFrame r.1])

/-- `WaveVisualizer.visualize`: false when no analyser is attached, the
canvas is missing, or `getContext` yields null; otherwise cleanup, re-size
the canvas, and start the loop with `drawWave`. -/
def visualize (v : WaveState) (c? : Option Canvas) (sc : Sched) :
    WaveState × Sched × List Ev × Bool :=
  if v.hasAnalyser = false then (v, sc, [], false)
  else
    match c? with
    | none => (v, sc, [], false)
    | some c =>
      if c.ctxOk = false then (v, sc, [], false)
      else
        let cl := cleanup v sc
        let d := drawWave cl.1 cl.2.1
        (d.1, d.2.1, cl.2.2 ++ d.2.2, true)

/-- The host fires a scheduled callback of the wave renderer. -/
def fireFrame (v : WaveState) (i : Nat) (sc : Sched) : WaveState × Sched × List Ev :=
  drawWave v (rafCancel sc i)

end WaveVisualizer

/-! ## The single-animation-loop invariant -/

/-- Invariant tying a renderer's `animationFrameId` to the scheduler: every
pending handle is nonzero, already handed out, and is exactly the
renderer's registered handle.  It forces at most one pending callback. -/
def SchedInv (fid : Option Nat) (sc : Sched) : Prop :=
  1 ≤ sc.nextId ∧ sc.pending.Nodup ∧
  ∀ i ∈ sc.pending, 1 ≤ i ∧ i < sc.nextId ∧ fid = some i

theorem SchedInv.pending_le_one {fid : Option Nat} {sc : Sched}
    (h : SchedInv fid sc) : sc.pending.length ≤ 1 := by
  rcases sc with ⟨n, pend⟩
  rcases pend with _ | ⟨a, pend⟩
  · simp
  rcases pend with _ | ⟨b, pend⟩
  · simp
  exfalso
  rcases h with ⟨-, hnd, hall⟩
  have ha := (hall a (by simp)).2.2
  have hb := (hall b (by simp)).2.2
  rw [ha] at hb
  have hab : a = b := by injection hb
  subst hab
  simp at hnd

theorem SchedInv.pending_nil {fid : Option Nat} {sc : Sched}
    (h : SchedInv fid sc) (hf : fid = none ∨ fid = some 0) : sc.pending = [] := by
  rcases sc with ⟨n, pend⟩
  rcases pend with _ | ⟨a, pend⟩
  · rfl
  exfalso
  rcases h with ⟨-, -, hall⟩
  have ha := hall a (by simp)
  rcases hf with rfl | rfl
  · exact Option.noConfusion ha.2.2
  · have h0 : (0 : Nat) = a := by injection ha.2.2
    have h1 := ha.1
    omega

theorem SchedInv.pending_all_eq {i : Nat} {sc : Sched}
    (h : SchedInv (some i) sc) : ∀ j ∈ sc.pending, j = i := by
  intro j hj
  have := (h.2.2 j hj).2.2
  injection this with h2
  omega

theorem cancel_all_pending {sc : Sched} {i : Nat}
    (h : ∀ j ∈ sc.pending, j = i) : (rafCancel sc i).pending = [] := by
  rcases sc with ⟨n, pend⟩
  simp only [rafCancel]
  induction pend with
  | nil => rfl
  | cons a t ih =>
    have ha : a = i := h a (by simp)
    subst ha
    simp only [List.filter_cons]
    have : (a != a) = false := by simp
    rw [this]
    exact ih (fun j hj => h j (by simp [hj]))

theorem rafCancel_nextId (sc : Sched) (i : Nat) : (rafCancel sc i).nextId = sc.nextId := rfl

theorem schedInv_request {sc : Sched} (h1 : 1 ≤ sc.nextId) (hp : sc.pending = []) :
    SchedInv (some (rafRequest sc).1) (rafRequest sc).2 := by
  refine ⟨?_, ?_, ?_⟩
  · show 1 ≤ sc.nextId + 1
    omega
  · show (sc.pending ++ [sc.nextId]).Nodup
    simp [hp]
  · intro i hi
    have : i = sc.nextId := by
      simp only [rafRequest] at hi
      simpa [hp] using hi
    subst this
    exact ⟨h1, by show sc.nextId < sc.nextId + 1; omega, rfl⟩


theorem spec_visualize_schedInv (v : SpecState) (c? : Option Canvas) (raw : List ℚ)
    (sc : Sched) (h : SchedInv v.frameId sc) :
    SchedInv (SpectrumVisualizer.visualize v c? raw sc).1.frameId
             (SpectrumVisualizer.visualize v c? raw sc).2.1 := by
  cases hA : v.hasAnalyser
  · simpa [SpectrumVisualizer.visualize, hA] using h
  rcases c? with _ | c
  · simpa [SpectrumVisualizer.visualize, hA] using h
  cases hC : c.ctxOk
  · simpa [SpectrumVisualizer.visualize, hA, hC] using h
  rcases hF : v.frameId with _ | i
  · have hp : sc.pending = [] := h.pending_nil (Or.inl hF)
    simpa [SpectrumVisualizer.visualize, SpectrumVisualizer.cleanup,
      SpectrumVisualizer.drawSpectrum, hA, hC, hF, rafRequest] using schedInv_request h.1 hp
  by_cases hi : i = 0
  · subst hi
    have hp : sc.pending = [] := h.pending_nil (Or.inr hF)
    simpa [SpectrumVisualizer.visualize, SpectrumVisualizer.cleanup,
      SpectrumVisualizer.drawSpectrum, hA, hC, hF, rafRequest] using schedInv_request h.1 hp
  · rw [hF] at h
    have hp : (rafCancel sc i).pending = [] := cancel_all_pending h.pending_all_eq
    have h1 : 1 ≤ (rafCancel sc i).nextId := h.1
    simpa [SpectrumVisualizer.visualize, SpectrumVisualizer.cleanup,
      SpectrumVisualizer.drawSpectrum, hA, hC, hF, hi, rafRequest, rafCancel]
      using schedInv_request h1 hp

theorem spec_fireFrame_schedInv (v : SpecState) (i : Nat) (raw : List ℚ) (sc : Sched)
    (h : SchedInv v.frameId sc) (hi : i ∈ sc.pending) :
    SchedInv (SpectrumVisualizer.fireFrame v i raw sc).1.frameId
             (SpectrumVisualizer.fireFrame v i raw sc).2.1 := by
  have hfid : v.frameId = some i := (h.2.2 i hi).2.2
  rw [hfid] at h
  have hp : (rafCancel sc i).pending = [] := cancel_all_pending h.pending_all_eq
  have h1 : 1 ≤ (rafCancel sc i).nextId := h.1
  cases hA : v.hasAnalyser
  · have hred : SpectrumVisualizer.fireFrame v i raw sc = (v, rafCancel sc i, []) := by
      simp [SpectrumVisualizer.fireFrame, SpectrumVisualizer.drawSpectrum, hA]
    rw [hred]
    refine ⟨h1, ?_, ?_⟩
    · show (rafCancel sc i).pending.Nodup
      rw [hp]
      exact List.nodup_nil
    · intro j hj
      have hj2 : j ∈ (rafCancel sc i).pending := hj
      rw [hp] at hj2
      simp at hj2
  · simpa [SpectrumVisualizer.fireFrame, SpectrumVisualizer.drawSpectrum, hA,
      rafRequest] using schedInv_request h1 hp

theorem part_visualize_schedInv (p : PartState) (c? : Option Canvas) (w h : ℚ)
    (raw : List ℚ) (draws : List Particle) (sc : Sched) (hI : SchedInv p.frameId sc) :
    SchedInv (ParticleVisualizer.visualize p c? w h raw draws sc).1.frameId
             (ParticleVisualizer.visualize p c? w h raw draws sc).2.1 := by
  cases hA : p.hasAnalyser
  · simpa [ParticleVisualizer.visualize, hA] using hI
  rcases c? with _ | c
  · simpa [ParticleVisualizer.visualize, hA] using hI
  cases hC : c.ctxOk
  · simpa [ParticleVisualizer.visualize, hA, hC] using hI
  rcases hF : p.frameId with _ | i
  · have hp : sc.pending = [] := hI.pending_nil (Or.inl hF)
    simpa [ParticleVisualizer.visualize, ParticleVisualizer.cleanup,
      ParticleVisualizer.animateParticles, hA, hC, hF, rafRequest]
      using schedInv_request hI.1 hp
  by_cases hi : i = 0
  · subst hi
    have hp : sc.pending = [] := hI.pending_nil (Or.inr hF)
    simpa [ParticleVisualizer.visualize, ParticleVisualizer.cleanup,
      ParticleVisualizer.animateParticles, hA, hC, hF, rafRequest]
      using schedInv_request hI.1 hp
  · rw [hF] at hI
    have hp : (rafCancel sc i).pending = [] := cancel_all_pending hI.pending_all_eq
    have h1 : 1 ≤ (rafCancel sc i).nextId := hI.1
    simpa [ParticleVisualizer.visualize, ParticleVisualizer.cleanup,
      ParticleVisualizer.animateParticles, hA, hC, hF, hi, rafRequest, rafCancel]
      using schedInv_request h1 hp

theorem part_fireFrame_schedInv (p : PartState) (i : Nat) (w h : ℚ) (raw : List ℚ)
    (draws : List Particle) (sc : Sched)
    (hI : SchedInv p.frameId sc) (hi : i ∈ sc.pending) :
    SchedInv (ParticleVisualizer.fireFrame p i w h raw draws sc).1.frameId
             (ParticleVisualizer.fireFrame p i w h raw draws sc).2.1 := by
  have hfid : p.frameId = some i := (hI.2.2 i hi).2.2
  rw [hfid] at hI
  have hp : (rafCancel sc i).pending = [] := cancel_all_pending hI.pending_all_eq
  have h1 : 1 ≤ (rafCancel sc i).nextId := hI.1
  cases hA : p.hasAnalyser
  · have hred : ParticleVisualizer.fireFrame p i w h raw draws sc = (p, rafCancel sc i, []) := by
      simp [ParticleVisualizer.fireFrame, ParticleVisualizer.animateParticles, hA]
    rw [hred]
    refine ⟨h1, ?_, ?_⟩
    · show (rafCancel sc i).pending.Nodup
      rw [hp]
      exact List.nodup_nil
    · intro j hj
      have hj2 : j ∈ (rafCancel sc i).pending := hj
      rw [hp] at hj2
      simp at hj2
  · simpa [ParticleVisualizer.fireFrame, ParticleVisualizer.animateParticles, hA,
      rafRequest] using schedInv_request h1 hp

theorem bar_visualize_schedInv (b : BarState) (c? : Option Canvas) (w : ℚ)
    (sc : Sched) (h : SchedInv b.frameId sc) :
    SchedInv (BarVisualizer.visualize b c? w sc).1.frameId
             (BarVisualizer.visualize b c? w sc).2.1 := by
  cases hA : b.hasAnalyser
  · simpa [BarVisualizer.visualize, hA] using h
  rcases c? with _ | c
  · simpa [BarVisualizer.visualize, hA] using h
  cases hC : c.ctxOk
  · simpa [BarVisualizer.visualize, hA, hC] using h
  rcases hF : b.frameId with _ | i
  · have hp : sc.pending = [] := h.pending_nil (Or.inl hF)
    by_cases ht : ((b.frameSkipTracker + 1) % 10) % 2 = 0 <;>
      simpa [BarVisualizer.visualize, BarVisualizer.cleanup, BarVisualizer.updateBars,
        hA, hC, hF, ht, rafRequest] using schedInv_request h.1 hp
  by_cases hi : i = 0
  · subst hi
    have hp : sc.pending = [] := h.pending_nil (Or.inr hF)
    by_cases ht : ((b.frameSkipTracker + 1) % 10) % 2 = 0 <;>
      simpa [BarVisualizer.visualize, BarVisualizer.cleanup, BarVisualizer.updateBars,
        hA, hC, hF, ht, rafRequest] using schedInv_request h.1 hp
  · rw [hF] at h
    have hp : (rafCancel sc i).pending = [] := cancel_all_pending h.pending_all_eq
    have h1 : 1 ≤ (rafCancel sc i).nextId := h.1
    by_cases ht : ((b.frameSkipTracker + 1) % 10) % 2 = 0 <;>
      simpa [BarVisualizer.visualize, BarVisualizer.cleanup, BarVisualizer.updateBars,
        hA, hC, hF, hi, ht, rafRequest, rafCancel] using schedInv_request h1 hp

theorem bar_fireFrame_schedInv (b : BarState) (i : Nat) (w : ℚ) (sc : Sched)
    (h : SchedInv b.frameId sc) (hi : i ∈ sc.pending) :
    SchedInv (BarVisualizer.fireFrame b i w sc).1.frameId
             (BarVisualizer.fireFrame b i w sc).2.1 := by
  have hfid : b.frameId = some i := (h.2.2 i hi).2.2
  rw [hfid] at h
  have hp : (rafCancel sc i).pending = [] := cancel_all_pending h.pending_all_eq
  have h1 : 1 ≤ (rafCancel sc i).nextId := h.1
  cases hA : b.hasAnalyser
  · have hred : BarVisualizer.fireFrame b i w sc = (b, rafCancel sc i, []) := by
      simp [BarVisualizer.fireFrame, BarVisualizer.updateBars, hA]
    rw [hred]
    refine ⟨h1, ?_, ?_⟩
    · show (rafCancel sc i).pending.Nodup
      rw [hp]
      exact List.nodup_nil
    · intro j hj
      have hj2 : j ∈ (rafCancel sc i).pending := hj
      rw [hp] at hj2
      simp at hj2
  · by_cases ht : ((b.frameSkipTracker + 1) % 10) % 2 = 0 <;>
      simpa [BarVisualizer.fireFrame, BarVisualizer.updateBars, hA, ht,
        rafRequest] using schedInv_request h1 hp

theorem wave_visualize_schedInv (wv : WaveState) (c? : Option Canvas)
    (sc : Sched) (h : SchedInv wv.frameId sc) :
    SchedInv (WaveVisualizer.visualize wv c? sc).1.frameId
             (WaveVisualizer.visualize wv c? sc).2.1 := by
  cases hA : wv.hasAnalyser
  · simpa [WaveVisualizer.visualize, hA] using h
  rcases c? with _ | c
  · simpa [WaveVisualizer.visualize, hA] using h
  cases hC : c.ctxOk
  · simpa [WaveVisualizer.visualize, hA, hC] using h
  rcases hF : wv.frameId with _ | i
  · have hp : sc.pending = [] := h.pending_nil (Or.inl hF)
    simpa [WaveVisualizer.visualize, WaveVisualizer.cleanup, WaveVisualizer.drawWave,
      hA, hC, hF, rafRequest] using schedInv_request h.1 hp
  by_cases hi : i = 0
  · subst hi
    have hp : sc.pending = [] := h.pending_nil (Or.inr hF)
    simpa [WaveVisualizer.visualize, WaveVisualizer.cleanup, WaveVisualizer.drawWave,
      hA, hC, hF, rafRequest] using schedInv_request h.1 hp
  · rw [hF] at h
    have hp : (rafCancel sc i).pending = [] := cancel_all_pending h.pending_all_eq
    have h1 : 1 ≤ (rafCancel sc i).nextId := h.1
    simpa [WaveVisualizer.visualize, WaveVisualizer.cleanup, WaveVisualizer.drawWave,
      hA, hC, hF, hi, rafRequest, rafCancel] using schedInv_request h1 hp

theorem wave_fireFrame_schedInv (wv : WaveState) (i : Nat) (sc : Sched)
    (h : SchedInv wv.frameId sc) (hi : i ∈ sc.pending) :
    SchedInv (WaveVisualizer.fireFrame wv i sc).1.frameId
             (WaveVisualizer.fireFrame wv i sc).2.1 := by
  have hfid : wv.frameId = some i := (h.2.2 i hi).2.2
  rw [hfid] at h
  have hp : (rafCancel sc i).pending = [] := cancel_all_pending h.pending_all_eq
  have h1 : 1 ≤ (rafCancel sc i).nextId := h.1
  cases hA : wv.hasAnalyser
  · have hred : WaveVisualizer.fireFrame wv i sc = (wv, rafCancel sc i, []) := by
      simp [WaveVisualizer.fireFrame, WaveVisualizer.drawWave, hA]
    rw [hred]
    refine ⟨h1, ?_, ?_⟩
    · show (rafCancel sc i).pending.Nodup
      rw [hp]
      exact List.nodup_nil
    · intro j hj
      have hj2 : j ∈ (rafCancel sc i).pending := hj
      rw [hp] at hj2
      simp at hj2
  · simpa [WaveVisualizer.fireFrame, WaveVisualizer.drawWave, hA,
      rafRequest] using schedInv_request h1 hp

/-! ## C6 and C7: the renderers' `visualize`, all four strategies -/

/-- Claim C6: for every renderer strategy present in the source (bar, wave,
spectrum, particle), under the invariant that at most the renderer's own
registered handle is pending, `visualize` and the firing of a scheduled
frame preserve the invariant, so at every instant at most one
animation-loop callback is scheduled per renderer; moreover, when
`visualize` runs while a loop is registered, its action trace is exactly
the cancellation of the prior handle followed by the scheduling of the new
one — the prior loop is cancelled before a new frame is ever scheduled. -/
theorem c6_one_loop_per_renderer
    (v : SpecState) (p : PartState) (b : BarState) (wv : WaveState)
    (c? : Option Canvas) (raw : List ℚ) (w h wb : ℚ) (draws : List Particle)
    (sc sc2 sc3 sc4 : Sched) (i j : Nat) (c : Canvas)
    (hv : SchedInv v.frameId sc) (hp : SchedInv p.frameId sc2)
    (hb : SchedInv b.frameId sc3) (hw : SchedInv wv.frameId sc4) :
    (SchedInv (SpectrumVisualizer.visualize v c? raw sc).1.frameId
              (SpectrumVisualizer.visualize v c? raw sc).2.1 ∧
     (SpectrumVisualizer.visualize v c? raw sc).2.1.pending.length ≤ 1) ∧
    (i ∈ sc.pending →
      SchedInv (SpectrumVisualizer.fireFrame v i raw sc).1.frameId
               (SpectrumVisualizer.fireFrame v i raw sc).2.1) ∧
    (v.frameId = some j → j ≠ 0 → v.hasAnalyser = true → c.ctxOk = true →
      (SpectrumVisualizer.visualize v (some c) raw sc).2.2.1 =
        [Ev.cancelFrame j, Ev.requestFrame sc.nextId]) ∧
    (SchedInv (ParticleVisualizer.visualize p c? w h raw draws sc2).1.frameId
              (ParticleVisualizer.visualize p c? w h raw draws sc2).2.1 ∧
     (ParticleVisualizer.visualize p c? w h raw draws sc2).2.1.pending.length ≤ 1) ∧
    (i ∈ sc2.pending →
      SchedInv (ParticleVisualizer.fireFrame p i w h raw draws sc2).1.frameId
               (ParticleVisualizer.fireFrame p i w h raw draws sc2).2.1) ∧
    (p.frameId = some j → j ≠ 0 → p.hasAnalyser = true → c.ctxOk = true →
      (ParticleVisualizer.visualize p (some c) w h raw draws sc2).2.2.1 =
        [Ev.cancelFrame j, Ev.requestFrame sc2.nextId]) ∧
    (SchedInv (BarVisualizer.visualize b c? wb sc3).1.frameId
              (BarVisualizer.visualize b c? wb sc3).2.1 ∧
     (BarVisualizer.visualize b c? wb sc3).2.1.pending.length ≤ 1) ∧
    (i ∈ sc3.pending →
      SchedInv (BarVisualizer.fireFrame b i wb sc3).1.frameId
               (BarVisualizer.fireFrame b i wb sc3).2.1) ∧
    (b.frameId = some j → j ≠ 0 → b.hasAnalyser = true → c.ctxOk = true →
      (BarVisualizer.visualize b (some c) wb sc3).2.2.1 =
        [Ev.cancelFrame j, Ev.requestFrame sc3.nextId]) ∧
    (SchedInv (WaveVisualizer.visualize wv c? sc4).1.frameId
              (WaveVisualizer.visualize wv c? sc4).2.1 ∧
     (WaveVisualizer.visualize wv c? sc4).2.1.pending.length ≤ 1) ∧
    (i ∈ sc4.pending →
      SchedInv (WaveVisualizer.fireFrame wv i sc4).1.frameId
               (WaveVisualizer.fireFrame wv i sc4).2.1) ∧
    (wv.frameId = some j → j ≠ 0 → wv.hasAnalyser = true → c.ctxOk = true →
      (WaveVisualizer.visualize wv (some c) sc4).2.2.1 =
        [Ev.cancelFrame j, Ev.requestFrame sc4.nextId]) := by
  refine ⟨⟨spec_visualize_schedInv v c? raw sc hv,
           (spec_visualize_schedInv v c? raw sc hv).pending_le_one⟩,
          fun hi => spec_fireFrame_schedInv v i raw sc hv hi,
          ?_,
          ⟨part_visualize_schedInv p c? w h raw draws sc2 hp,
           (part_visualize_schedInv p c? w h raw draws sc2 hp).pending_le_one⟩,
          fun hi => part_fireFrame_schedInv p i w h raw draws sc2 hp hi,
          ?_,
          ⟨bar_visualize_schedInv b c? wb sc3 hb,
           (bar_visualize_schedInv b c? wb sc3 hb).pending_le_one⟩,
          fun hi => bar_fireFrame_schedInv b i wb sc3 hb hi,
          ?_,
          ⟨wave_visualize_schedInv wv c? sc4 hw,
           (wave_visualize_schedInv wv c? sc4 hw).pending_le_one⟩,
          fun hi => wave_fireFrame_schedInv wv i sc4 hw hi,
          ?_⟩
  · intro hF hj hA hC
    simp [SpectrumVisualizer.visualize, SpectrumVisualizer.cleanup,
      SpectrumVisualizer.drawSpectrum, hF, hj, hA, hC, rafRequest, rafCancel]
  · intro hF hj hA hC
    simp [ParticleVisualizer.visualize, ParticleVisualizer.cleanup,
      ParticleVisualizer.animateParticles, hF, hj, hA, hC, rafRequest, rafCancel]
  · intro hF hj hA hC
    by_cases ht : ((b.frameSkipTracker + 1) % 10) % 2 = 0 <;>
      simp [BarVisualizer.visualize, BarVisualizer.cleanup, BarVisualizer.updateBars,
        hF, hj, hA, hC, ht, rafRequest, rafCancel]
  · intro hF hj hA hC
    simp [WaveVisualizer.visualize, WaveVisualizer.cleanup, WaveVisualizer.drawWave,
      hF, hj, hA, hC, rafRequest, rafCancel]

/-- A spectrum renderer with a registered loop, its scheduler, a particle
renderer in the same situation, and a working canvas, used to instantiate
the renderer theorems. -/
def vEx : SpecState := { hasAnalyser := true, frameId := some 1, bins := 2, smoothed := [0, 0] }

def pEx : PartState :=
  { hasAnalyser := true, frameId := some 1, particles := [], hue := 0, particleCount := 100 }

/-- A bar renderer with a registered loop. -/
def bEx : BarState :=
  { hasAnalyser := true, frameId := some 1, xPosition := 0, frameSkipTracker := 0, barWidth := 2 }

/-- A wave renderer with a registered loop. -/
def wvEx : WaveState := { hasAnalyser := true, frameId := some 1 }

def scEx : Sched := { nextId := 2, pending := [1] }

def cEx : Canvas := { ctxOk := true }

/-- Witness for `c6_one_loop_per_renderer` at renderers whose loops are
running. -/
theorem c6_one_loop_per_renderer_witness :
    (SchedInv (SpectrumVisualizer.visualize vEx (some cEx) [] scEx).1.frameId
              (SpectrumVisualizer.visualize vEx (some cEx) [] scEx).2.1 ∧
     (SpectrumVisualizer.visualize vEx (some cEx) [] scEx).2.1.pending.length ≤ 1) ∧
    (1 ∈ scEx.pending →
      SchedInv (SpectrumVisualizer.fireFrame vEx 1 [] scEx).1.frameId
               (SpectrumVisualizer.fireFrame vEx 1 [] scEx).2.1) ∧
    (vEx.frameId = some 1 → (1 : Nat) ≠ 0 → vEx.hasAnalyser = true → cEx.ctxOk = true →
      (SpectrumVisualizer.visualize vEx (some cEx) [] scEx).2.2.1 =
        [Ev.cancelFrame 1, Ev.requestFrame scEx.nextId]) ∧
    (SchedInv (ParticleVisualizer.visualize pEx (some cEx) 100 100 [] [] scEx).1.frameId
              (ParticleVisualizer.visualize pEx (some cEx) 100 100 [] [] scEx).2.1 ∧
     (ParticleVisualizer.visualize pEx (some cEx) 100 100 [] [] scEx).2.1.pending.length ≤ 1) ∧
    (1 ∈ scEx.pending →
      SchedInv (ParticleVisualizer.fireFrame pEx 1 100 100 [] [] scEx).1.frameId
               (ParticleVisualizer.fireFrame pEx 1 100 100 [] [] scEx).2.1) ∧
    (pEx.frameId = some 1 → (1 : Nat) ≠ 0 → pEx.hasAnalyser = true → cEx.ctxOk = true →
      (ParticleVisualizer.visualize pEx (some cEx) 100 100 [] [] scEx).2.2.1 =
        [Ev.cancelFrame 1, Ev.requestFrame scEx.nextId]) ∧
    (SchedInv (BarVisualizer.visualize bEx (some cEx) 100 scEx).1.frameId
              (BarVisualizer.visualize bEx (some cEx) 100 scEx).2.1 ∧
     (BarVisualizer.visualize bEx (some cEx) 100 scEx).2.1.pending.length ≤ 1) ∧
    (1 ∈ scEx.pending →
      SchedInv (BarVisualizer.fireFrame bEx 1 100 scEx).1.frameId
               (BarVisualizer.fireFrame bEx 1 100 scEx).2.1) ∧
    (bEx.frameId = some 1 → (1 : Nat) ≠ 0 → bEx.hasAnalyser = true → cEx.ctxOk = true →
      (BarVisualizer.visualize bEx (some cEx) 100 scEx).2.2.1 =
        [Ev.cancelFrame 1, Ev.requestFrame scEx.nextId]) ∧
    (SchedInv (WaveVisualizer.visualize wvEx (some cEx) scEx).1.frameId
              (WaveVisualizer.visualize wvEx (some cEx) scEx).2.1 ∧
     (WaveVisualizer.visualize wvEx (some cEx) scEx).2.1.pending.length ≤ 1) ∧
    (1 ∈ scEx.pending →
      SchedInv (WaveVisualizer.fireFrame wvEx 1 scEx).1.frameId
               (WaveVisualizer.fireFrame wvEx 1 scEx).2.1) ∧
    (wvEx.frameId = some 1 → (1 : Nat) ≠ 0 → wvEx.hasAnalyser = true → cEx.ctxOk = true →
      (WaveVisualizer.visualize wvEx (some cEx) scEx).2.2.1 =
        [Ev.cancelFrame 1, Ev.requestFrame scEx.nextId]) :=
  c6_one_loop_per_renderer vEx pEx bEx wvEx (some cEx) [] 100 100 100 [] scEx scEx scEx scEx
    1 1 cEx (by simp only [SchedInv]; decide) (by simp only [SchedInv]; decide)
    (by simp only [SchedInv]; decide) (by simp only [SchedInv]; decide)

theorem spec_visualize_cases (v : SpecState) (c? : Option Canvas) (raw : List ℚ)
    (sc : Sched) :
    ((SpectrumVisualizer.visualize v c? raw sc).2.2.2 = true ↔
      v.hasAnalyser = true ∧ ∃ c, c? = some c ∧ c.ctxOk = true) ∧
    ((SpectrumVisualizer.visualize v c? raw sc).2.2.2 = false →
      SpectrumVisualizer.visualize v c? raw sc = (v, sc, [], false)) := by
  rcases c? with _ | c
  · cases hA : v.hasAnalyser <;> simp [SpectrumVisualizer.visualize, hA]
  · cases hA : v.hasAnalyser
    · simp [SpectrumVisualizer.visualize, hA]
    · cases hC : c.ctxOk <;> simp [SpectrumVisualizer.visualize, hA, hC]

theorem part_visualize_cases (p : PartState) (c? : Option Canvas) (w h : ℚ)
    (raw : List ℚ) (draws : List Particle) (sc : Sched) :
    ((ParticleVisualizer.visualize p c? w h raw draws sc).2.2.2 = true ↔
      p.hasAnalyser = true ∧ ∃ c, c? = some c ∧ c.ctxOk = true) ∧
    ((ParticleVisualizer.visualize p c? w h raw draws sc).2.2.2 = false →
      ParticleVisualizer.visualize p c? w h raw draws sc = (p, sc, [], false)) := by
  rcases c? with _ | c
  · cases hA : p.hasAnalyser <;> simp [ParticleVisualizer.visualize, hA]
  · cases hA : p.hasAnalyser
    · simp [ParticleVisualizer.visualize, hA]
    · cases hC : c.ctxOk <;> simp [ParticleVisualizer.visualize, hA, hC]

theorem bar_visualize_cases (b : BarState) (c? : Option Canvas) (wb : ℚ)
    (sc : Sched) :
    ((BarVisualizer.visualize b c? wb sc).2.2.2 = true ↔
      b.hasAnalyser = true ∧ ∃ c, c? = some c ∧ c.ctxOk = true) ∧
    ((BarVisualizer.visualize b c? wb sc).2.2.2 = false →
      BarVisualizer.visualize b c? wb sc = (b, sc, [], false)) := by
  rcases c? with _ | c
  · cases hA : b.hasAnalyser <;> simp [BarVisualizer.visualize, hA]
  · cases hA : b.hasAnalyser
    · simp [BarVisualizer.visualize, hA]
    · cases hC : c.ctxOk <;> simp [BarVisualizer.visualize, hA, hC]

theorem wave_visualize_cases (wv : WaveState) (c? : Option Canvas) (sc : Sched) :
    ((WaveVisualizer.visualize wv c? sc).2.2.2 = true ↔
      wv.hasAnalyser = true ∧ ∃ c, c? = some c ∧ c.ctxOk = true) ∧
    ((WaveVisualizer.visualize wv c? sc).2.2.2 = false →
      WaveVisualizer.visualize wv c? sc = (wv, sc, [], false)) := by
  rcases c? with _ | c
  · cases hA : wv.hasAnalyser <;> simp [WaveVisualizer.visualize, hA]
  · cases hA : wv.hasAnalyser
    · simp [WaveVisualizer.visualize, hA]
    · cases hC : c.ctxOk <;> simp [WaveVisualizer.visualize, hA, hC]

/-- Claim C7: for every visualizer strategy present in the source (bar,
wave, spectrum, particle), `visualize` returns true iff an analyser is
attached and the canvas yields a non-null 2D drawing context; whenever it
returns false, no animation-loop callback is scheduled and the renderer's
state (and the scheduler) are unchanged and no action is emitted. -/
theorem c7_visualize_true_iff (v : SpecState) (p : PartState) (b : BarState)
    (wv : WaveState) (c? : Option Canvas) (raw : List ℚ) (w h wb : ℚ)
    (draws : List Particle) (sc sc2 sc3 sc4 : Sched) :
    ((SpectrumVisualizer.visualize v c? raw sc).2.2.2 = true ↔
      v.hasAnalyser = true ∧ ∃ c, c? = some c ∧ c.ctxOk = true) ∧
    ((SpectrumVisualizer.visualize v c? raw sc).2.2.2 = false →
      SpectrumVisualizer.visualize v c? raw sc = (v, sc, [], false)) ∧
    ((ParticleVisualizer.visualize p c? w h raw draws sc2).2.2.2 = true ↔
      p.hasAnalyser = true ∧ ∃ c, c? = some c ∧ c.ctxOk = true) ∧
    ((ParticleVisualizer.visualize p c? w h raw draws sc2).2.2.2 = false →
      ParticleVisualizer.visualize p c? w h raw draws sc2 = (p, sc2, [], false)) ∧
    ((BarVisualizer.visualize b c? wb sc3).2.2.2 = true ↔
      b.hasAnalyser = true ∧ ∃ c, c? = some c ∧ c.ctxOk = true) ∧
    ((BarVisualizer.visualize b c? wb sc3).2.2.2 = false →
      BarVisualizer.visualize b c? wb sc3 = (b, sc3, [], false)) ∧
    ((WaveVisualizer.visualize wv c? sc4).2.2.2 = true ↔
      wv.hasAnalyser = true ∧ ∃ c, c? = some c ∧ c.ctxOk = true) ∧
    ((WaveVisualizer.visualize wv c? sc4).2.2.2 = false →
      WaveVisualizer.visualize wv c? sc4 = (wv, sc4, [], false)) :=
  ⟨(spec_visualize_cases v c? raw sc).1, (spec_visualize_cases v c? raw sc).2,
   (part_visualize_cases p c? w h raw draws sc2).1,
   (part_visualize_cases p c? w h raw draws sc2).2,
   (bar_visualize_cases b c? wb sc3).1, (bar_visualize_cases b c? wb sc3).2,
   (wave_visualize_cases wv c? sc4).1, (wave_visualize_cases wv c? sc4).2⟩

/-- Witness for `c7_visualize_true_iff` at live renderers and a working
canvas. -/
theorem c7_visualize_true_iff_witness :
    ((SpectrumVisualizer.visualize vEx (some cEx) [] scEx).2.2.2 = true ↔
      vEx.hasAnalyser = true ∧ ∃ c, some cEx = some c ∧ c.ctxOk = true) ∧
    ((SpectrumVisualizer.visualize vEx (some cEx) [] scEx).2.2.2 = false →
      SpectrumVisualizer.visualize vEx (some cEx) [] scEx = (vEx, scEx, [], false)) ∧
    ((ParticleVisualizer.visualize pEx (some cEx) 100 100 [] [] scEx).2.2.2 = true ↔
      pEx.hasAnalyser = true ∧ ∃ c, some cEx = some c ∧ c.ctxOk = true) ∧
    ((ParticleVisualizer.visualize pEx (some cEx) 100 100 [] [] scEx).2.2.2 = false →
      ParticleVisualizer.visualize pEx (some cEx) 100 100 [] [] scEx =
        (pEx, scEx, [], false)) ∧
    ((BarVisualizer.visualize bEx (some cEx) 100 scEx).2.2.2 = true ↔
      bEx.hasAnalyser = true ∧ ∃ c, some cEx = some c ∧ c.ctxOk = true) ∧
    ((BarVisualizer.visualize bEx (some cEx) 100 scEx).2.2.2 = false →
      BarVisualizer.visualize bEx (some cEx) 100 scEx = (bEx, scEx, [], false)) ∧
    ((WaveVisualizer.visualize wvEx (some cEx) scEx).2.2.2 = true ↔
      wvEx.hasAnalyser = true ∧ ∃ c, some cEx = some c ∧ c.ctxOk = true) ∧
    ((WaveVisualizer.visualize wvEx (some cEx) scEx).2.2.2 = false →
      WaveVisualizer.visualize wvEx (some cEx) scEx = (wvEx, scEx, [], false)) :=
  c7_visualize_true_iff vEx pEx bEx wvEx (some cEx) [] 100 100 100 [] scEx scEx scEx scEx

/-! ## C8 and C10: the spectrum smoothing recurrence -/

namespace SpectrumVisualizer

/-- The per-bin smoothing sequence under a constant raw input `V`:
`smoothIter s0 V n` is the smoothed value after `n` frames starting from
`s0`. -/
def smoothIter (s0 V : ℚ) : Nat → ℚ
  | 0 => s0
  | n + 1 => smoothStep (smoothIter s0 V n) V

theorem smoothIter_sub (s0 V : ℚ) (n : Nat) :
    smoothIter s0 V n - V = (4/5) ^ n * (s0 - V) := by
  induction n with
  | zero => simp [smoothIter]
  | succ n ih =>
    have : smoothIter s0 V (n + 1) - V = (4/5) * (smoothIter s0 V n - V) := by
      simp only [smoothIter, smoothStep]
      ring
    rw [this, ih]
    ring

end SpectrumVisualizer

/-- C8: the spectrum renderer's per-bin recurrence is
`smoothed = smoothed*0.8 + raw*0.2`, and a smoothed array of the wrong
length is re-initialized to the raw values (the unset / first-frame case);
under a constant raw magnitude `V` the per-bin sequence never overshoots
`V` (it stays on its starting side of `V`), moves monotonically toward `V`
with the distance to `V` nonincreasing, and a bin initialized to the raw
value stays exactly at `V`. -/
theorem c8_smoothing_monotone_convergence (s0 V : ℚ) (n : Nat) (raw : List ℚ) :
    SpectrumVisualizer.smoothUpdate [] raw = raw ∧
    SpectrumVisualizer.smoothIter s0 V (n + 1) =
      SpectrumVisualizer.smoothStep (SpectrumVisualizer.smoothIter s0 V n) V ∧
    SpectrumVisualizer.smoothStep s0 V = s0 * (4/5) + V * (1/5) ∧
    |SpectrumVisualizer.smoothIter s0 V (n + 1) - V| ≤
      |SpectrumVisualizer.smoothIter s0 V n - V| ∧
    (s0 ≤ V → SpectrumVisualizer.smoothIter s0 V n ≤
        SpectrumVisualizer.smoothIter s0 V (n + 1) ∧
      SpectrumVisualizer.smoothIter s0 V n ≤ V) ∧
    (V ≤ s0 → SpectrumVisualizer.smoothIter s0 V (n + 1) ≤
        SpectrumVisualizer.smoothIter s0 V n ∧
      V ≤ SpectrumVisualizer.smoothIter s0 V n) ∧
    SpectrumVisualizer.smoothIter V V n = V := by
  have hpow : (0 : ℚ) < (4/5) ^ n := by positivity
  have hsub := SpectrumVisualizer.smoothIter_sub s0 V n
  have hsub1 := SpectrumVisualizer.smoothIter_sub s0 V (n + 1)
  refine ⟨?_, rfl, by simp [SpectrumVisualizer.smoothStep], ?_, ?_, ?_, ?_⟩
  · rcases raw with _ | ⟨a, t⟩
    · simp [SpectrumVisualizer.smoothUpdate]
    · simp [SpectrumVisualizer.smoothUpdate]
  · have h45 : SpectrumVisualizer.smoothIter s0 V (n + 1) - V =
        (4/5) * (SpectrumVisualizer.smoothIter s0 V n - V) := by
      rw [hsub, hsub1]
      ring
    rw [h45, abs_mul]
    have habs : |(4/5 : ℚ)| = 4/5 := by norm_num
    rw [habs]
    nlinarith [abs_nonneg (SpectrumVisualizer.smoothIter s0 V n - V)]
  · intro hle
    constructor
    · have : SpectrumVisualizer.smoothIter s0 V (n + 1) -
          SpectrumVisualizer.smoothIter s0 V n = (4/5) ^ n * (1/5) * (V - s0) := by
        rw [sub_eq_iff_eq_add] at hsub hsub1
        rw [hsub, hsub1]
        ring
      nlinarith
    · nlinarith
  · intro hle
    constructor
    · have : SpectrumVisualizer.smoothIter s0 V n -
          SpectrumVisualizer.smoothIter s0 V (n + 1) = (4/5) ^ n * (1/5) * (s0 - V) := by
        rw [sub_eq_iff_eq_add] at hsub hsub1
        rw [hsub, hsub1]
        ring
      nlinarith
    · nlinarith
  · have := SpectrumVisualizer.smoothIter_sub V V n
    simp at this
    linarith [this]

/-- Witness for `c8_smoothing_monotone_convergence` starting below the
constant input. -/
theorem c8_smoothing_monotone_convergence_witness :
    SpectrumVisualizer.smoothUpdate [] [7] = [7] ∧
    SpectrumVisualizer.smoothIter 0 3 (2 + 1) =
      SpectrumVisualizer.smoothStep (SpectrumVisualizer.smoothIter 0 3 2) 3 ∧
    SpectrumVisualizer.smoothStep 0 3 = 0 * (4/5) + 3 * (1/5) ∧
    |SpectrumVisualizer.smoothIter 0 3 (2 + 1) - 3| ≤
      |SpectrumVisualizer.smoothIter 0 3 2 - 3| ∧
    ((0 : ℚ) ≤ 3 → SpectrumVisualizer.smoothIter 0 3 2 ≤
        SpectrumVisualizer.smoothIter 0 3 (2 + 1) ∧
      SpectrumVisualizer.smoothIter 0 3 2 ≤ 3) ∧
    ((3 : ℚ) ≤ 0 → SpectrumVisualizer.smoothIter 0 3 (2 + 1) ≤
        SpectrumVisualizer.smoothIter 0 3 2 ∧
      (3 : ℚ) ≤ SpectrumVisualizer.smoothIter 0 3 2) ∧
    SpectrumVisualizer.smoothIter 3 3 2 = 3 :=
  c8_smoothing_monotone_convergence 0 3 2 [7]

theorem mem_zipWith {α β γ : Type} {f : α → β → γ} {as : List α} {bs : List β} {y : γ}
    (hy : y ∈ List.zipWith f as bs) : ∃ a ∈ as, ∃ b ∈ bs, y = f a b := by
  induction as generalizing bs with
  | nil => simp at hy
  | cons a t ih =>
    rcases bs with _ | ⟨b, bs⟩
    · simp at hy
    · rw [List.zipWith_cons_cons] at hy
      rcases List.mem_cons.mp hy with h | h
      · exact ⟨a, by simp, b, by simp, h⟩
      · rcases ih h with ⟨a2, ha2, b2, hb2, rfl⟩
        exact ⟨a2, by simp [ha2], b2, by simp [hb2], rfl⟩

theorem smoothUpdate_bounds {sm raw : List ℚ}
    (hs : ∀ x ∈ sm, 0 ≤ x ∧ x ≤ 255) (hr : ∀ r ∈ raw, 0 ≤ r ∧ r ≤ 255) :
    ∀ y ∈ SpectrumVisualizer.smoothUpdate sm raw, 0 ≤ y ∧ y ≤ 255 := by
  intro y hy
  unfold SpectrumVisualizer.smoothUpdate at hy
  by_cases hl : sm.length ≠ raw.length
  · rw [if_pos hl] at hy
    exact hr y hy
  · rw [if_neg hl] at hy
    rcases mem_zipWith hy with ⟨a, ha, b, hb, rfl⟩
    have h1 := hs a ha
    have h2 := hr b hb
    unfold SpectrumVisualizer.smoothStep
    constructor <;> linarith [h1.1, h1.2, h2.1, h2.2]

/-- Iterating the smoothing block of `drawSpectrum` over a sequence of raw
frames. -/
def smoothRun (init : List ℚ) (frames : List (List ℚ)) : List ℚ :=
  frames.foldl SpectrumVisualizer.smoothUpdate init

theorem smoothRun_bounds (frames : List (List ℚ)) (init : List ℚ)
    (hi : ∀ x ∈ init, 0 ≤ x ∧ x ≤ 255)
    (hf : ∀ raw ∈ frames, ∀ r ∈ raw, 0 ≤ r ∧ r ≤ 255) :
    ∀ y ∈ smoothRun init frames, 0 ≤ y ∧ y ≤ 255 := by
  induction frames generalizing init with
  | nil => exact hi
  | cons raw frames ih =>
    have hmid := smoothUpdate_bounds hi (hf raw (by simp))
    exact ih _ hmid (fun r hr => hf r (by simp [hr]))

/-- Claim C10: when the initial smoothed array and every raw frame hold
only values in `[0, 255]` (raw frequency magnitudes are bytes), every entry
of the smoothed array is still in `[0, 255]` after any number of smoothing
updates — each update is a convex combination of the previous smoothed
value and the raw value, or a copy of the raw values on re-initialization. -/
theorem c10_smoothed_values_bounded (frames : List (List ℚ)) (init : List ℚ) (y : ℚ)
    (hi : ∀ x ∈ init, 0 ≤ x ∧ x ≤ 255)
    (hf : ∀ raw ∈ frames, ∀ r ∈ raw, 0 ≤ r ∧ r ≤ 255)
    (hy : y ∈ smoothRun init frames) : 0 ≤ y ∧ y ≤ 255 :=
  smoothRun_bounds frames init hi hf y hy

/-- Witness for `c10_smoothed_values_bounded`: the first entry of the run
of the post-`visualize` zeroed array through two byte-valued frames. -/
theorem c10_smoothed_values_bounded_witness : (0 : ℚ) ≤ 56 ∧ (56 : ℚ) ≤ 255 :=
  c10_smoothed_values_bounded [[100, 255], [200, 0]] [0, 0] 56
    (by intro x hx; fin_cases hx <;> norm_num)
    (by intro raw hraw; fin_cases hraw <;> intro r hr <;> fin_cases hr <;> norm_num)
    (by
      show (56 : ℚ) ∈ smoothRun [0, 0] [[100, 255], [200, 0]]
      norm_num [smoothRun, SpectrumVisualizer.smoothUpdate, SpectrumVisualizer.smoothStep])

/-! ## C9: particle lifecycle -/

namespace ParticleVisualizer

/-- The particle after `k` update ticks. -/
def stepN (p : Particle) : Nat → Particle
  | 0 => p
  | k + 1 => stepParticle (stepN p k)

/-- `k` full `updateParticles` ticks with zero intensity (so no spawn
draws are consumed), tracking the update-and-remove behaviour. -/
def runTicks (w h : ℚ) (count : Nat) (ps : List Particle) : Nat → List Particle
  | 0 => ps
  | k + 1 => updateParticles w h count 0 [] (runTicks w h count ps k)

theorem stepN_life (p : Particle) (k : Nat) : (stepN p k).life = p.life + k := by
  induction k with
  | zero => rfl
  | succ k ih =>
    show (stepParticle (stepN p k)).life = p.life + (k + 1)
    simp [stepParticle, ih]
    omega

theorem stepN_maxLife (p : Particle) (k : Nat) : (stepN p k).maxLife = p.maxLife := by
  induction k with
  | zero => rfl
  | succ k ih =>
    show (stepParticle (stepN p k)).maxLife = p.maxLife
    simp [stepParticle, ih]

end ParticleVisualizer

theorem updateParticles_no_spawn (w h : ℚ) (count : Nat) (ps : List Particle) :
    ParticleVisualizer.updateParticles w h count 0 [] ps =
      ParticleVisualizer.updateExisting w h ps := by
  simp [ParticleVisualizer.updateParticles, ParticleVisualizer.addNew]

theorem updateExisting_singleton (w h : ℚ) (q : Particle) :
    ParticleVisualizer.updateExisting w h [q] =
      if ParticleVisualizer.outOfBounds w h (ParticleVisualizer.stepParticle q) ||
          ParticleVisualizer.expired (ParticleVisualizer.stepParticle q) then []
      else [ParticleVisualizer.stepParticle q] := by
  simp only [ParticleVisualizer.updateExisting, List.map_cons, List.map_nil]
  cases hb : ParticleVisualizer.outOfBounds w h (ParticleVisualizer.stepParticle q) ||
      ParticleVisualizer.expired (ParticleVisualizer.stepParticle q)
  · simp [List.filter, hb]
  · simp [List.filter, hb]

/-- C9: a particle created at age 0 whose motion keeps it inside the
surface (never out of bounds by more than its radius) is still in the
particle set after the tick where its age equals its max-age `m` and is
removed exactly on the next tick (age `m + 1`); a particle is removed at
an age not exceeding its max-age exactly when its position has left the
surface bounds by more than its radius. -/
theorem c9_particle_removed_after_maxlife (w h : ℚ) (count m k : Nat) (p q : Particle)
    (h0 : p.life = 0) (hm : p.maxLife = (m : ℚ))
    (hin : ∀ j : Nat, j ≤ m →
      ParticleVisualizer.outOfBounds w h (ParticleVisualizer.stepN p (j + 1)) = false)
    (hk : k ≤ m) :
    ParticleVisualizer.runTicks w h count [p] k = [ParticleVisualizer.stepN p k] ∧
    ParticleVisualizer.runTicks w h count [p] (m + 1) = [] ∧
    (ParticleVisualizer.stepN p m).life = m ∧
    (ParticleVisualizer.stepN p (m + 1)).life = m + 1 ∧
    (ParticleVisualizer.outOfBounds w h (ParticleVisualizer.stepParticle q) = true →
      ParticleVisualizer.updateExisting w h [q] = []) ∧
    (ParticleVisualizer.outOfBounds w h (ParticleVisualizer.stepParticle q) = false →
      (ParticleVisualizer.updateExisting w h [q] = [ParticleVisualizer.stepParticle q] ↔
        (q.life : ℚ) + 1 ≤ q.maxLife)) := by
  have hexpN : ∀ n : Nat, ParticleVisualizer.expired
      (ParticleVisualizer.stepParticle (ParticleVisualizer.stepN p n)) = decide ((n + 1 : ℚ) > (m : ℚ)) := by
    intro n
    have hlife : (ParticleVisualizer.stepParticle (ParticleVisualizer.stepN p n)).life = n + 1 := by
      show (ParticleVisualizer.stepN p (n + 1)).life = n + 1
      rw [ParticleVisualizer.stepN_life, h0]
      omega
    have hmax : (ParticleVisualizer.stepParticle (ParticleVisualizer.stepN p n)).maxLife = (m : ℚ) := by
      show (ParticleVisualizer.stepN p (n + 1)).maxLife = (m : ℚ)
      rw [ParticleVisualizer.stepN_maxLife, hm]
    simp [ParticleVisualizer.expired, hlife, hmax]
  have hpres : ∀ k2 : Nat, k2 ≤ m →
      ParticleVisualizer.runTicks w h count [p] k2 = [ParticleVisualizer.stepN p k2] := by
    intro k2 hk2
    induction k2 with
    | zero => rfl
    | succ n ih =>
      have hn : n ≤ m := le_trans (Nat.le_succ n) hk2
      show ParticleVisualizer.updateParticles w h count 0 []
        (ParticleVisualizer.runTicks w h count [p] n) = [ParticleVisualizer.stepN p (n + 1)]
      rw [ih hn, updateParticles_no_spawn, updateExisting_singleton]
      have hout := hin n hn
      have hout2 : ParticleVisualizer.outOfBounds w h
          (ParticleVisualizer.stepParticle (ParticleVisualizer.stepN p n)) = false := hout
      have hexp : ParticleVisualizer.expired
          (ParticleVisualizer.stepParticle (ParticleVisualizer.stepN p n)) = false := by
        rw [hexpN n]
        simp only [decide_eq_false_iff_not, not_lt]
        exact_mod_cast hk2
      rw [hout2, hexp]
      simp
      rfl
  refine ⟨hpres k hk, ?_, ?_, ?_, ?_, ?_⟩
  · show ParticleVisualizer.updateParticles w h count 0 []
      (ParticleVisualizer.runTicks w h count [p] m) = []
    rw [hpres m le_rfl, updateParticles_no_spawn, updateExisting_singleton]
    have hexp : ParticleVisualizer.expired
        (ParticleVisualizer.stepParticle (ParticleVisualizer.stepN p m)) = true := by
      rw [hexpN m]
      simp only [decide_eq_true_eq]
      exact_mod_cast Nat.lt_succ_self m
    rw [hexp]
    simp
  · rw [ParticleVisualizer.stepN_life, h0]
    omega
  · rw [ParticleVisualizer.stepN_life, h0]
    omega
  · intro hq
    rw [updateExisting_singleton, hq]
    simp
  · intro hq
    rw [updateExisting_singleton, hq]
    have hlife : ((ParticleVisualizer.stepParticle q).life : ℚ) = (q.life : ℚ) + 1 := by
      simp [ParticleVisualizer.stepParticle]
    have hmax : (ParticleVisualizer.stepParticle q).maxLife = q.maxLife := by
      simp [ParticleVisualizer.stepParticle]
    constructor
    · intro hkeep
      by_contra hgt
      push_neg at hgt
      have : ParticleVisualizer.expired (ParticleVisualizer.stepParticle q) = true := by
        simp [ParticleVisualizer.expired, hlife, hmax]
        linarith
      rw [this] at hkeep
      simp at hkeep
    · intro hle
      have : ParticleVisualizer.expired (ParticleVisualizer.stepParticle q) = false := by
        simp [ParticleVisualizer.expired, hlife, hmax]
        linarith
      rw [this]
      simp

/-- A particle at the centre of a 10×10 surface with no motion, age 0 and
max-age 2. -/
def p0 : Particle :=
  { x := 5, y := 5, size := 1, dx := 0, dy := 0, life := 0, maxLife := 2 }

/-- Witness for `c9_particle_removed_after_maxlife` at max-age 2: present
after 2 ticks, removed on tick 3. -/
theorem c9_particle_removed_after_maxlife_witness :
    ParticleVisualizer.runTicks 10 10 100 [p0] 2 = [ParticleVisualizer.stepN p0 2] ∧
    ParticleVisualizer.runTicks 10 10 100 [p0] (2 + 1) = [] ∧
    (ParticleVisualizer.stepN p0 2).life = 2 ∧
    (ParticleVisualizer.stepN p0 (2 + 1)).life = 2 + 1 ∧
    (ParticleVisualizer.outOfBounds 10 10 (ParticleVisualizer.stepParticle p0) = true →
      ParticleVisualizer.updateExisting 10 10 [p0] = []) ∧
    (ParticleVisualizer.outOfBounds 10 10 (ParticleVisualizer.stepParticle p0) = false →
      (ParticleVisualizer.updateExisting 10 10 [p0] = [ParticleVisualizer.stepParticle p0] ↔
        (p0.life : ℚ) + 1 ≤ p0.maxLife)) :=
  c9_particle_removed_after_maxlife 10 10 100 2 2 p0 p0 rfl (by norm_num [p0])
    (by
      intro j hj
      interval_cases j <;>
        simp [ParticleVisualizer.outOfBounds, ParticleVisualizer.stepN,
          ParticleVisualizer.stepParticle, p0] <;>
        norm_num)
    (by norm_num)
